import Mathlib

/-!
Verification of the rigol_remote repository (cmd/rigol_visa/main.go).

This file gives a shallow embedding of the pure logic of the program:
the SCPI command batching of `Trigger`, the bounded status poll of
`WaitForCapture`, the waveform frame split of `FetchWaveformData`, the
preamble parsing of `FetchPreamble`, and the edge-extraction loop of
`main`.  Transport reads and writes are modelled as explicit inputs
(functions from poll index or command to scripted results).

Byte values are modelled as `Nat` (the Go `byte` values), strings as the
`List Char` of their contents, Go `int64` as `Int` with explicit range
checks, and Go `float64` as exact rational values (`GoFloat` below).
Go maps built by the edge-extraction loop are modelled as association
lists in which an assignment removes the previous binding of the key, so
the list is exactly the graph of the final map.
-/

/-- Model of Go `strings.Split(s, sep)` for the single-character
separators used by the program (`","` and `"\n"`).  The empty input
yields one empty field, as in Go. -/
def splitOnChar (sep : Char) : List Char → List (List Char)
  | [] => [[]]
  | c :: cs =>
    if c = sep then
      [] :: splitOnChar sep cs
    else
      match splitOnChar sep cs with
      | [] => [[c]]
      | g :: gs => (c :: g) :: gs

/-- The first line of a response: Go `strings.Split(s, "\n")[0]`, i.e.
the characters before the first newline. -/
def firstLineChars (cs : List Char) : List Char :=
  cs.takeWhile (fun c => c ≠ '\n')

/-- Decimal digit test, Go `'0' <= c && c <= '9'`. -/
def isDigit (c : Char) : Bool :=
  '0' ≤ c ∧ c ≤ '9'

/-- Value of a list of decimal digits, most significant first. -/
def digitsToNat (ds : List Char) : Nat :=
  ds.foldl (fun a c => 10 * a + (c.toNat - 48)) 0

/-- Splits a leading sign off a token: Go `strconv` sign handling. -/
def stripSign : List Char → Bool × List Char
  | '+' :: cs => (false, cs)
  | '-' :: cs => (true, cs)
  | cs => (false, cs)

/-- Model of Go `strconv.ParseInt(s, 10, 64)`: an optional sign followed
by one or more decimal digits, whose value must fit in a signed 64-bit
integer; every failure (syntax or range) is `none`, matching the code
under verification which only distinguishes `err != nil`. -/
def goParseInt (s : List Char) : Option Int :=
  let (neg, ds) := stripSign s
  if ds ≠ [] ∧ ds.all isDigit then
    let v : Int := if neg then -(digitsToNat ds : Int) else (digitsToNat ds : Int)
    if -(2 ^ 63) ≤ v ∧ v < 2 ^ 63 then some v else none
  else
    none

/-- Result of Go `strconv.ParseFloat(s, 64)`.  A finite value is kept
exactly as `mantissa * 10 ^ exp10` (see `GoFloat.toRat`); IEEE-754
rounding, the overflow and underflow `ErrRange` cases, hexadecimal
floats and digit-separating underscores are not modelled, and no claim
in this development depends on them. -/
inductive GoFloat where
  | finite (mantissa : Int) (exp10 : Int)
  | inf (neg : Bool)
  | nan
deriving DecidableEq, Repr

/-- Takes the maximal run of leading decimal digits. -/
def takeDigits : List Char → List Char × List Char
  | [] => ([], [])
  | c :: cs =>
    if isDigit c then
      match takeDigits cs with
      | (ds, rest) => (c :: ds, rest)
    else
      ([], c :: cs)

/-- Integer power of ten as a rational, for decimal exponents. -/
def pow10 (e : Int) : ℚ :=
  if 0 ≤ e then ((10 : ℚ) ^ e.toNat) else 1 / ((10 : ℚ) ^ (-e).toNat)

/-- Exact value of a decimal mantissa and exponent. -/
def floatVal (neg : Bool) (ip fp : List Char) (ex : Int) : GoFloat :=
  let m : Int := (digitsToNat (ip ++ fp) : Int)
  .finite (if neg then -m else m) (ex - (fp.length : Int))

/-- Rational denotation of a parsed float, when finite.  Two distinct
mantissa and exponent pairs can denote the same value; the claims only
ever compare the results of parsing one and the same token, so the
syntactic `GoFloat` equality is sufficient everywhere below. -/
def GoFloat.toRat : GoFloat → Option ℚ
  | .finite m e => some ((m : ℚ) * pow10 e)
  | _ => none

/-- Exponent suffix of a float token: optional sign then one or more
digits, consuming the whole remainder. -/
def parseExpPart (cs : List Char) : Option Int :=
  let (neg, ds) := stripSign cs
  if ds ≠ [] ∧ ds.all isDigit then
    some (if neg then -(digitsToNat ds : Int) else (digitsToNat ds : Int))
  else
    none

/-- Model of Go `strconv.ParseFloat(s, 64)` (see `GoFloat` for the
abstractions): optional sign, then either a case-insensitive infinity
token, the case-insensitive token nan (accepted only unsigned, as in
`strconv`), or a decimal mantissa with at least one digit, an optional
fraction and an optional exponent. -/
def goParseFloat (s : List Char) : Option GoFloat :=
  let (neg, rest) := stripSign s
  if rest.map Char.toLower = ['i', 'n', 'f'] ∨
      rest.map Char.toLower = ['i', 'n', 'f', 'i', 'n', 'i', 't', 'y'] then
    some (.inf neg)
  else if s.map Char.toLower = ['n', 'a', 'n'] then
    some .nan
  else
    match takeDigits rest with
    | (ip, r1) =>
      let fr : List Char × List Char :=
        match r1 with
        | '.' :: r => takeDigits r
        | _ => ([], r1)
      match fr with
      | (fp, r2) =>
        if ip = [] ∧ fp = [] then
          none
        else
          match r2 with
          | [] => some (floatVal neg ip fp 0)
          | e :: rexp =>
            if e = 'e' ∨ e = 'E' then
              match parseExpPart rexp with
              | some ex => some (floatVal neg ip fp ex)
              | none => none
            else
              none

/-! ## Preamble parsing (`FetchPreamble`, main.go lines 132-210) -/

/-- Go struct `Preamble` (main.go lines 132-143).  The Go field `Type`
is rendered `typ` because `Type` is reserved in Lean; `int64` fields
are `Int`, `float64` fields are `GoFloat`. -/
structure Preamble where
  Format : Int
  typ : Int
  Points : Int
  Count : Int
  Xincrement : GoFloat
  Xorigin : GoFloat
  Xref : Int
  Yincrement : GoFloat
  Yorigin : Int
  Yref : Int
deriving DecidableEq, Repr

/-- Outcome of the parsing part of `FetchPreamble`.  `err k raw` models
the Go code returning the `strconv` error of field `k` (raw token
`raw`); `panicked k` models the Go runtime index-out-of-range panic
raised by the unchecked expression `parts[k]` when fewer than `k + 1`
fields are present — a crash, not a returned error. -/
inductive PreambleResult where
  | ok (p : Preamble)
  | err (fieldIndex : Nat) (raw : List Char)
  | panicked (fieldIndex : Nat)
deriving DecidableEq, Repr

/-- The ten parse-and-assign blocks of `FetchPreamble` (main.go lines
156-209), in source order.  Each block models one Go statement
`if v, err := strconv.ParseInt(parts[k], 10, 64); err != nil` returning
`nil, err`, else assigning the field and continuing (fields 4, 5 and 7
use `strconv.ParseFloat(parts[k], 64)`): first the unchecked index
access `parts[k]` (panicking when out of range), then the parse. -/
def parsePreambleParts (parts : List (List Char)) : PreambleResult :=
  match parts[0]? with
  | none => .panicked 0
  | some s0 =>
  match goParseInt s0 with
  | none => .err 0 s0
  | some format =>
  match parts[1]? with
  | none => .panicked 1
  | some s1 =>
  match goParseInt s1 with
  | none => .err 1 s1
  | some typ =>
  match parts[2]? with
  | none => .panicked 2
  | some s2 =>
  match goParseInt s2 with
  | none => .err 2 s2
  | some points =>
  match parts[3]? with
  | none => .panicked 3
  | some s3 =>
  match goParseInt s3 with
  | none => .err 3 s3
  | some count =>
  match parts[4]? with
  | none => .panicked 4
  | some s4 =>
  match goParseFloat s4 with
  | none => .err 4 s4
  | some xinc =>
  match parts[5]? with
  | none => .panicked 5
  | some s5 =>
  match goParseFloat s5 with
  | none => .err 5 s5
  | some xorig =>
  match parts[6]? with
  | none => .panicked 6
  | some s6 =>
  match goParseInt s6 with
  | none => .err 6 s6
  | some xref =>
  match parts[7]? with
  | none => .panicked 7
  | some s7 =>
  match goParseFloat s7 with
  | none => .err 7 s7
  | some yinc =>
  match parts[8]? with
  | none => .panicked 8
  | some s8 =>
  match goParseInt s8 with
  | none => .err 8 s8
  | some yorig =>
  match parts[9]? with
  | none => .panicked 9
  | some s9 =>
  match goParseInt s9 with
  | none => .err 9 s9
  | some yref =>
  .ok ⟨format, typ, points, count, xinc, xorig, xref, yinc, yorig, yref⟩

/-- The fields of the response: first line, split on commas
(main.go lines 154-157). -/
def preambleParts (resp : String) : List (List Char) :=
  splitOnChar ',' (firstLineChars resp.data)

/-- The parsing performed by `FetchPreamble` on a response string (the
transport read itself is outside the model). -/
def parsePreamble (resp : String) : PreambleResult :=
  parsePreambleParts (preambleParts resp)

/-- Whether a token parses as the declared numeric kind of field `k`:
fields 4, 5 and 7 (xIncrement, xOrigin, yIncrement) are `ParseFloat`
fields, the other seven are `ParseInt` fields. -/
def tokenOK : Nat → List Char → Bool
  | 4, s => (goParseFloat s).isSome
  | 5, s => (goParseFloat s).isSome
  | 7, s => (goParseFloat s).isSome
  | _, s => (goParseInt s).isSome

/-! ## Waveform frame splitting (`FetchWaveformData`, main.go lines 59-79) -/

/-- Outcome of the frame split `return d[0:11], d[11:len(d)-1], nil`.
`panicked` models the Go runtime slice-bounds panic: the two slice
expressions are simultaneously in range exactly when `len(d) >= 12`
(for shorter `d` the expression `d[11:len(d)-1]` always has
`len(d)-1 < 11` or is past the length, so the program crashes). -/
inductive FrameResult where
  | frame (header payload : List Nat)
  | panicked
deriving DecidableEq, Repr

/-- The split performed by `FetchWaveformData` on the bytes returned by
`r.Read(125000)` (main.go line 78): header `d[0:11]`, payload
`d[11:len(d)-1]`, the final byte (the terminator) discarded. -/
def splitWaveformData (d : List Nat) : FrameResult :=
  if 12 ≤ d.length then
    .frame (d.take 11) ((d.drop 11).dropLast)
  else
    .panicked

/-! ## Capture polling (`WaitForCapture`, main.go lines 113-130) -/

/-- Result of the poll loop, carrying the number of polls performed:
`stopped n` models `return nil` after the n-th status read matched,
`timedOut n` models the final `errors.New("timeout waiting for
trigger")` after n unsuccessful polls. -/
inductive WaitResult where
  | stopped (polls : Nat)
  | timedOut (polls : Nat)
deriving DecidableEq, Repr

/-- Whether poll `j` observes a stop: Go
`strings.Split(string(d), "\n")[0] == "STOP"` for the scripted
response `f j`. -/
def isStop (f : Nat → String) (j : Nat) : Prop :=
  firstLineChars (f j).data = "STOP".data

instance (f : Nat → String) (j : Nat) : Decidable (isStop f j) := by
  unfold isStop; infer_instance

/-- The loop body of `WaitForCapture` from iteration `i` with `fuel`
iterations left (the Go loop runs `i = 0, ..., 59`, so `fuel = 60 - i`).
Each iteration sleeps, queries the status and compares the first line
of the response with the literal STOP; transport errors are assumed
absent (they would abort the loop early and are outside this model). -/
def waitFrom (f : Nat → String) : Nat → Nat → WaitResult
  | i, 0 => .timedOut i
  | i, fuel + 1 =>
    if isStop f i then .stopped (i + 1) else waitFrom f (i + 1) fuel

/-- `WaitForCapture` polls at most 60 times, responses scripted by `f`. -/
def WaitForCapture (f : Nat → String) : WaitResult :=
  waitFrom f 0 60

/-! ## Command batches (`Write`, main.go lines 42-49, and the loops of
`Trigger` and `FetchWaveformData`) -/

/-- A scripted transport for writes: for each command string, the byte
count and the VISA status that `r.Instr.Write` reports.  `Write`
(main.go line 44) discards the count (`_, status := ...`) and returns
an error exactly when `status < vi.SUCCESS`, i.e. when the status is
negative. -/
def writeFails (w : String → Nat × Int) (cmd : String) : Bool :=
  (w cmd).2 < 0

/-- The command loop shared by `Trigger` and `FetchWaveformData`:
`for _, cmd := range setup` calling `r.Write(cmd)` and returning its
error as soon as one write fails.  The result pairs the list of
commands actually handed to the transport, in order, with the command
whose write failed, if any. -/
def sendCommands (w : String → Nat × Int) : List String → List String × Option String
  | [] => ([], none)
  | c :: cs =>
    if writeFails w c then
      ([c], some c)
    else
      match sendCommands w cs with
      | (sent, e) => (c :: sent, e)

/-! ## Edge extraction (`main`, main.go lines 260-286) -/

/-- Assignment `m[k] = v` on a Go map represented as the graph of the
map: the new binding replaces any previous binding of `k`. -/
def goMapInsert (m : List (Nat × Nat)) (k v : Nat) : List (Nat × Nat) :=
  (k, v) :: m.filter (fun p => p.1 ≠ k)

/-- The Go condition `b&1<<i != last&1<<i` (main.go line 279).  In Go,
`&` and `<<` share precedence level 5 and associate to the left, so
the expression parses as `(b&1)<<i != (last&1)<<i`, computed on `byte`
(hence the reduction modulo 256).  For `i < 8` this compares bit 0 of
`b` with bit 0 of `last` and does not depend on `i`. -/
def pinChanged (b last i : Nat) : Bool :=
  ((b &&& 1) <<< i) % 256 ≠ ((last &&& 1) <<< i) % 256

/-- The inner loop `for i := 0; i < len(pins); i++` storing the current
timestamp for every pin index whose `pinChanged` test fires.  Only the
size of the `pins` map is observable here (`numPins`). -/
def updatePins (numPins ts b last : Nat) (m : List (Nat × Nat)) : List (Nat × Nat) :=
  (List.range numPins).foldl
    (fun m i => if pinChanged b last i then goMapInsert m i ts else m) m

/-- State of the edge-extraction loop: the `transitions` map
(timestamp to raw byte), the `signalChanges` map (pin index to
timestamp of latest change), and the loop variables `last` and
`timestamp`. -/
structure ExtractState where
  transitions : List (Nat × Nat)
  signalChanges : List (Nat × Nat)
  last : Nat
  timestamp : Nat
deriving DecidableEq, Repr

/-- One iteration of `for _, b := range data` (main.go lines 273-286). -/
def extractStep (numPins : Nat) (st : ExtractState) (b : Nat) : ExtractState :=
  if b ≠ st.last then
    { transitions := goMapInsert st.transitions st.timestamp b
      signalChanges := updatePins numPins st.timestamp b st.last st.signalChanges
      last := b
      timestamp := st.timestamp + 1 }
  else
    { st with last := b, timestamp := st.timestamp + 1 }

/-- State before the loop: `timestamp = 0`, `last = 0x00`, empty
`signalChanges`, and `transitions[0] = 0x00` already recorded
(main.go lines 268-272). -/
def extractInit : ExtractState :=
  { transitions := [(0, 0)], signalChanges := [], last := 0, timestamp := 0 }

/-- The whole edge-extraction pass over the payload. -/
def extractEdges (numPins : Nat) (data : List Nat) : ExtractState :=
  data.foldl (extractStep numPins) extractInit

example : splitOnChar ',' "1,2,1000".data = [['1'], ['2'], ['1', '0', '0', '0']] := by decide
example : goParseInt ['1', '0', '0', '0'] = some 1000 := by decide
example : goParseInt ['x'] = none := by decide
example : goParseInt ['0', '.', '1'] = none := by decide
example : goParseFloat ['0', '.', '1'] = some (.finite 1 (-1)) := by decide
example : goParseFloat ['1', 'e', '2'] = some (.finite 1 2) := by decide
example : goParseFloat ['5'] = some (.finite 5 0) := by decide
example : goParseFloat ['-', 'i', 'n', 'f'] = some (.inf true) := by decide
example : goParseFloat ['x'] = none := by decide
example : firstLineChars "STOP\nrest".data = "STOP".data := by decide
example : parsePreamble "1,2,1000" = .panicked 3 := by decide
example : parsePreamble "x,2,1000,1,0.1,0,0,1,0,0" = .err 0 ['x'] := by decide
example : parsePreamble "0,2,1000,1,0.1,0,0,1,0,0" =
    .ok ⟨0, 2, 1000, 1, .finite 1 (-1), .finite 0 0, 0, .finite 1 0, 0, 0⟩ := by decide
example : splitWaveformData [1, 2, 3] = .panicked := by decide
example : splitWaveformData [0, 1, 2, 3, 4, 5, 6, 7, 8, 9, 10, 11, 12] =
    .frame [0, 1, 2, 3, 4, 5, 6, 7, 8, 9, 10] [11] := by decide
example : WaitForCapture (fun _ => "STOP\n") = .stopped 1 := by decide
example : WaitForCapture (fun _ => "RUN\n") = .timedOut 60 := by decide
example : WaitForCapture (fun j => if j = 2 then "STOP" else "WAIT") = .stopped 3 := by decide
example : sendCommands (fun s => (s.length, if s = "B" then -1 else 0)) ["A", "B", "C"] =
    (["A", "B"], some "B") := by decide
example : extractEdges 2 [0, 0, 1, 1, 3] =
    { transitions := [(4, 3), (2, 1), (0, 0)], signalChanges := [(1, 2), (0, 2)],
      last := 3, timestamp := 5 } := by decide
example : extractEdges 2 [1] =
    { transitions := [(0, 1)], signalChanges := [(1, 0), (0, 0)],
      last := 1, timestamp := 1 } := by decide

/-! ## Association-list lemmas for the Go map model -/

theorem lookup_goMapInsert_self (m : List (Nat × Nat)) (k v : Nat) :
    (goMapInsert m k v).lookup k = some v := by
  simp [goMapInsert, List.lookup_cons]

theorem lookup_filter_ne (m : List (Nat × Nat)) (j k : Nat) (h : j ≠ k) :
    (m.filter (fun p => p.1 ≠ k)).lookup j = m.lookup j := by
  induction m with
  | nil => simp
  | cons p m ih =>
    obtain ⟨a, b⟩ := p
    simp only [ne_eq, decide_not] at ih ⊢
    by_cases hak : a = k
    · subst hak
      have hja : (j == a) = false := by simp [h]
      simp [List.filter_cons, List.lookup_cons, hja, ih]
    · by_cases hja : j = a
      · subst hja
        simp [List.filter_cons, hak, List.lookup_cons]
      · have hja' : (j == a) = false := by simp [hja]
        simp [List.filter_cons, hak, List.lookup_cons, hja', ih]

theorem lookup_goMapInsert_ne (m : List (Nat × Nat)) (j k v : Nat) (h : j ≠ k) :
    (goMapInsert m k v).lookup j = m.lookup j := by
  have hf := lookup_filter_ne m j k h
  have hjk : (j == k) = false := by simp [h]
  simp only [goMapInsert, List.lookup_cons, hjk]
  exact hf

/-! ## The edge-extraction loop -/

theorem extractStep_eq_pos (n : Nat) (st : ExtractState) (b : Nat) (h : b ≠ st.last) :
    extractStep n st b =
      { transitions := goMapInsert st.transitions st.timestamp b
        signalChanges := updatePins n st.timestamp b st.last st.signalChanges
        last := b
        timestamp := st.timestamp + 1 } := by
  unfold extractStep
  rw [if_pos h]

theorem extractStep_eq_neg (n : Nat) (st : ExtractState) (b : Nat) (h : ¬ b ≠ st.last) :
    extractStep n st b = { st with last := b, timestamp := st.timestamp + 1 } := by
  unfold extractStep
  rw [if_neg h]

theorem extractStep_timestamp (n : Nat) (st : ExtractState) (b : Nat) :
    (extractStep n st b).timestamp = st.timestamp + 1 := by
  unfold extractStep
  split <;> rfl

/-- A binding produced by the inner pin loop either carries the current
timestamp or was already present. -/
theorem lookup_updatePins (n ts b last : Nat) (m : List (Nat × Nat)) (j t : Nat)
    (h : (updatePins n ts b last m).lookup j = some t) :
    t = ts ∨ m.lookup j = some t := by
  unfold updatePins at h
  generalize List.range n = ks at h
  induction ks generalizing m with
  | nil => right; exact h
  | cons i ks ih =>
    rw [List.foldl_cons] at h
    rcases ih _ h with hts | hm
    · left; exact hts
    · by_cases hp : pinChanged b last i = true
      · rw [if_pos hp] at hm
        by_cases hji : j = i
        · subst hji
          rw [lookup_goMapInsert_self] at hm
          left
          exact (Option.some.inj hm).symm
        · rw [lookup_goMapInsert_ne _ _ _ _ hji] at hm
          right
          exact hm
      · rw [if_neg hp] at hm
        right
        exact hm

/-- Invariant of the extraction loop after consuming the prefix `data`:
the timestamp equals the number of consumed bytes, and every recorded
latest-change timestamp is a transition-log key holding the byte
observed at that sample index. -/
def SigInv (data : List Nat) (st : ExtractState) : Prop :=
  st.timestamp = data.length ∧
  ∀ i t, st.signalChanges.lookup i = some t →
    ∃ v, data[t]? = some v ∧ st.transitions.lookup t = some v

theorem sigInv_step (n : Nat) (data : List Nat) (st : ExtractState) (b : Nat)
    (h : SigInv data st) : SigInv (data ++ [b]) (extractStep n st b) := by
  obtain ⟨hts, hinv⟩ := h
  by_cases hb : b ≠ st.last
  · rw [extractStep_eq_pos n st b hb]
    constructor
    · simp [hts]
    · intro i t hl
      rcases lookup_updatePins n st.timestamp b st.last st.signalChanges i t hl with ht | hold
      · subst ht
        refine ⟨b, ?_, ?_⟩
        · rw [hts, List.getElem?_concat_length]
        · exact lookup_goMapInsert_self st.transitions st.timestamp b
      · obtain ⟨v, hv1, hv2⟩ := hinv i t hold
        obtain ⟨hlt, _⟩ := List.getElem?_eq_some.mp hv1
        refine ⟨v, ?_, ?_⟩
        · rw [List.getElem?_append_left hlt]
          exact hv1
        · rw [lookup_goMapInsert_ne _ t st.timestamp b (by omega)]
          exact hv2
  · rw [extractStep_eq_neg n st b hb]
    constructor
    · simp [hts]
    · intro i t hl
      obtain ⟨v, hv1, hv2⟩ := hinv i t hl
      obtain ⟨hlt, _⟩ := List.getElem?_eq_some.mp hv1
      refine ⟨v, ?_, ?_⟩
      · rw [List.getElem?_append_left hlt]
        exact hv1
      · exact hv2

theorem sigInv_foldl (n : Nat) :
    ∀ (rest pre : List Nat) (st : ExtractState),
      SigInv pre st → SigInv (pre ++ rest) (rest.foldl (extractStep n) st) := by
  intro rest
  induction rest with
  | nil =>
    intro pre st h
    simpa using h
  | cons b rest ih =>
    intro pre st h
    have h2 := ih (pre ++ [b]) _ (sigInv_step n pre st b h)
    rw [List.append_assoc] at h2
    exact h2

/-- After a byte has been consumed, the binding of timestamp 0 in the
transition log never changes again: all later assignments use strictly
positive timestamps. -/
theorem foldl_extractStep_lookup_zero (n : Nat) :
    ∀ (rest : List Nat) (st : ExtractState), 1 ≤ st.timestamp →
      ((rest.foldl (extractStep n) st).transitions.lookup 0 = st.transitions.lookup 0) := by
  intro rest
  induction rest with
  | nil => intro st _; rfl
  | cons b rest ih =>
    intro st hst
    rw [List.foldl_cons]
    have hst' : 1 ≤ (extractStep n st b).timestamp := by
      rw [extractStep_timestamp]
      omega
    rw [ih _ hst']
    by_cases hb : b ≠ st.last
    · rw [extractStep_eq_pos n st b hb]
      exact lookup_goMapInsert_ne _ 0 st.timestamp b (by omega)
    · rw [extractStep_eq_neg n st b hb]

/-! ## The poll loop -/

theorem waitFrom_timeout (f : Nat → String) :
    ∀ fuel i, (∀ j, i ≤ j → j < i + fuel → ¬ isStop f j) →
      waitFrom f i fuel = .timedOut (i + fuel) := by
  intro fuel
  induction fuel with
  | zero => intro i _; simp [waitFrom]
  | succ fuel ih =>
    intro i hno
    have hi : ¬ isStop f i := hno i (Nat.le_refl i) (by omega)
    have : waitFrom f i (fuel + 1) = waitFrom f (i + 1) fuel := by
      simp [waitFrom, hi]
    rw [this, ih (i + 1) (fun j h1 h2 => hno j (by omega) (by omega))]
    congr 1
    omega

theorem waitFrom_stop (f : Nat → String) :
    ∀ fuel i k, i ≤ k → k < i + fuel → (∀ j, i ≤ j → j < k → ¬ isStop f j) →
      isStop f k → waitFrom f i fuel = .stopped (k + 1) := by
  intro fuel
  induction fuel with
  | zero => intro i k h1 h2 _ _; omega
  | succ fuel ih =>
    intro i k h1 h2 hno hk
    by_cases hik : k = i
    · subst hik
      simp [waitFrom, hk]
    · have hi : ¬ isStop f i := hno i (Nat.le_refl i) (by omega)
      have : waitFrom f i (fuel + 1) = waitFrom f (i + 1) fuel := by
        simp [waitFrom, hi]
      rw [this]
      exact ih (i + 1) k (by omega) (by omega) (fun j hj1 hj2 => hno j (by omega) hj2) hk

/-! ## Preamble parsing lemmas -/

theorem getD_of_getElem? (parts : List (List Char)) (k : Nat) (s : List Char)
    (h : parts[k]? = some s) : parts.getD k [] = s := by
  rw [List.getD_eq_getElem?_getD, h]
  rfl

theorem getElem?_of_length (parts : List (List Char)) (k : Nat)
    (h : k < parts.length) : parts[k]? = some (parts.getD k []) := by
  rw [List.getElem?_eq_getElem h, List.getD_eq_getElem?_getD, List.getElem?_eq_getElem h]
  rfl

/-- A successful parse forces at least ten fields and fixes every field
of the result as the parse of the token at its position. -/
theorem parsePreambleParts_ok (parts : List (List Char)) (p : Preamble)
    (h : parsePreambleParts parts = .ok p) :
    10 ≤ parts.length ∧
    goParseInt (parts.getD 0 []) = some p.Format ∧
    goParseInt (parts.getD 1 []) = some p.typ ∧
    goParseInt (parts.getD 2 []) = some p.Points ∧
    goParseInt (parts.getD 3 []) = some p.Count ∧
    goParseFloat (parts.getD 4 []) = some p.Xincrement ∧
    goParseFloat (parts.getD 5 []) = some p.Xorigin ∧
    goParseInt (parts.getD 6 []) = some p.Xref ∧
    goParseFloat (parts.getD 7 []) = some p.Yincrement ∧
    goParseInt (parts.getD 8 []) = some p.Yorigin ∧
    goParseInt (parts.getD 9 []) = some p.Yref := by
  unfold parsePreambleParts at h
  split at h
  · exact PreambleResult.noConfusion h
  rename_i s0 hp0
  split at h
  · exact PreambleResult.noConfusion h
  rename_i v0 hv0
  split at h
  · exact PreambleResult.noConfusion h
  rename_i s1 hp1
  split at h
  · exact PreambleResult.noConfusion h
  rename_i v1 hv1
  split at h
  · exact PreambleResult.noConfusion h
  rename_i s2 hp2
  split at h
  · exact PreambleResult.noConfusion h
  rename_i v2 hv2
  split at h
  · exact PreambleResult.noConfusion h
  rename_i s3 hp3
  split at h
  · exact PreambleResult.noConfusion h
  rename_i v3 hv3
  split at h
  · exact PreambleResult.noConfusion h
  rename_i s4 hp4
  split at h
  · exact PreambleResult.noConfusion h
  rename_i v4 hv4
  split at h
  · exact PreambleResult.noConfusion h
  rename_i s5 hp5
  split at h
  · exact PreambleResult.noConfusion h
  rename_i v5 hv5
  split at h
  · exact PreambleResult.noConfusion h
  rename_i s6 hp6
  split at h
  · exact PreambleResult.noConfusion h
  rename_i v6 hv6
  split at h
  · exact PreambleResult.noConfusion h
  rename_i s7 hp7
  split at h
  · exact PreambleResult.noConfusion h
  rename_i v7 hv7
  split at h
  · exact PreambleResult.noConfusion h
  rename_i s8 hp8
  split at h
  · exact PreambleResult.noConfusion h
  rename_i v8 hv8
  split at h
  · exact PreambleResult.noConfusion h
  rename_i s9 hp9
  split at h
  · exact PreambleResult.noConfusion h
  rename_i v9 hv9
  injection h with hpe
  subst hpe
  obtain ⟨h9lt, -⟩ := List.getElem?_eq_some.mp hp9
  refine ⟨by omega, ?_, ?_, ?_, ?_, ?_, ?_, ?_, ?_, ?_, ?_⟩
  · rw [getD_of_getElem? parts 0 s0 hp0, hv0]
  · rw [getD_of_getElem? parts 1 s1 hp1, hv1]
  · rw [getD_of_getElem? parts 2 s2 hp2, hv2]
  · rw [getD_of_getElem? parts 3 s3 hp3, hv3]
  · rw [getD_of_getElem? parts 4 s4 hp4, hv4]
  · rw [getD_of_getElem? parts 5 s5 hp5, hv5]
  · rw [getD_of_getElem? parts 6 s6 hp6, hv6]
  · rw [getD_of_getElem? parts 7 s7 hp7, hv7]
  · rw [getD_of_getElem? parts 8 s8 hp8, hv8]
  · rw [getD_of_getElem? parts 9 s9 hp9, hv9]

/-! ## Claim theorems -/

/-- Claim C4: `WaitForCapture` returns success the first time a polled
status response has first line equal to the literal STOP, and when no
poll matches it returns the capture-timeout error after exactly 60
unsuccessful polls, never more (the result carries the number of polls
performed). -/
theorem WaitForCapture_spec (f : Nat → String) :
    (∀ k, k < 60 → (∀ j, j < k → ¬ isStop f j) → isStop f k →
      WaitForCapture f = .stopped (k + 1)) ∧
    ((∀ j, j < 60 → ¬ isStop f j) → WaitForCapture f = .timedOut 60) := by
  constructor
  · intro k hk hno hs
    exact waitFrom_stop f 60 0 k (Nat.zero_le k) (by omega) (fun j _ hj => hno j hj) hs
  · intro hno
    have h := waitFrom_timeout f 60 0 (fun j _ h2 => hno j (by omega))
    simpa using h

/-- Witness for C4: a response stream answering STOP at once stops after
one poll; a stream never answering STOP times out after 60 polls. -/
theorem WaitForCapture_spec_witness :
    WaitForCapture (fun _ => "STOP\n") = .stopped 1 ∧
    WaitForCapture (fun _ => "RUN\n") = .timedOut 60 :=
  ⟨(WaitForCapture_spec (fun _ => "STOP\n")).1 0 (by omega)
      (fun j hj => absurd hj (Nat.not_lt_zero j)) (by decide),
    (WaitForCapture_spec (fun _ => "RUN\n")).2 (by decide)⟩

/-- Claim C8: for a read of length at least 12, the frame split yields
header `d[0:11]` of length 11 and payload `d[11:len-1]` of length
`len - 12`, and the terminator is the single final byte at index
`len - 1`, present in neither part. -/
theorem splitWaveformData_frame_spec (d : List Nat) (h : 12 ≤ d.length) :
    ∃ t, splitWaveformData d = .frame (d.take 11) ((d.drop 11).dropLast) ∧
      (d.take 11).length = 11 ∧
      ((d.drop 11).dropLast).length = d.length - 12 ∧
      d = d.take 11 ++ (d.drop 11).dropLast ++ [t] ∧
      d[d.length - 1]? = some t := by
  have hne : d.drop 11 ≠ [] := by
    intro hnil
    have := congrArg List.length hnil
    simp only [List.length_drop, List.length_nil] at this
    omega
  refine ⟨(d.drop 11).getLast hne, ?_, ?_, ?_, ?_, ?_⟩
  · simp [splitWaveformData, h]
  · simp only [List.length_take]
    omega
  · simp only [List.length_dropLast, List.length_drop]
    omega
  · conv_lhs => rw [← List.take_append_drop 11 d]
    rw [List.append_assoc]
    congr 1
    rw [List.dropLast_append_getLast hne]
  · have hd2 : d = (d.take 11 ++ (d.drop 11).dropLast) ++ [(d.drop 11).getLast hne] := by
      rw [List.append_assoc]
      conv_lhs => rw [← List.take_append_drop 11 d]
      congr 1
      rw [List.dropLast_append_getLast hne]
    rw [← List.getLast?_eq_getElem?]
    conv_lhs => rw [hd2]
    rw [List.getLast?_concat]

/-- Witness for C8 at the nominal response length 125000: header length
11, payload length 124988, terminator at index 124999. -/
theorem splitWaveformData_frame_spec_witness :
    ∃ t, splitWaveformData (List.replicate 125000 0) =
        .frame ((List.replicate 125000 0).take 11)
          (((List.replicate 125000 0).drop 11).dropLast) ∧
      ((List.replicate 125000 0).take 11).length = 11 ∧
      (((List.replicate 125000 0).drop 11).dropLast).length = 124988 ∧
      List.replicate 125000 0 = (List.replicate 125000 0).take 11 ++
        ((List.replicate 125000 0).drop 11).dropLast ++ [t] ∧
      (List.replicate 125000 0)[124999]? = some t := by
  obtain ⟨t, h1, h2, h3, h4, h5⟩ :=
    splitWaveformData_frame_spec (List.replicate 125000 0)
      (by rw [List.length_replicate]; omega)
  refine ⟨t, h1, h2, ?_, h4, ?_⟩
  · rw [List.length_replicate] at h3
    exact h3
  · rw [List.length_replicate] at h5
    exact h5

/-- Claim C3 counterexample: on an 11-byte read the slice expressions of
`FetchWaveformData` are out of range, so the program panics; no
ShortRead error value exists anywhere in the code, hence no error is
returned for short reads. -/
theorem splitWaveformData_short_read_panics_example :
    splitWaveformData (List.replicate 11 0) = .panicked := by decide

/-- Claim C3 amended: whenever the underlying read returns fewer than
the 12 bytes needed for the framing envelope, `FetchWaveformData`
panics with a slice-bounds violation instead of returning an error. -/
theorem splitWaveformData_short_read_panics (d : List Nat) (h : d.length < 12) :
    splitWaveformData d = .panicked := by
  unfold splitWaveformData
  rw [if_neg (by omega)]

/-- Witness for the amended C3 at the empty read. -/
theorem splitWaveformData_short_read_panics_witness :
    splitWaveformData [] = .panicked :=
  splitWaveformData_short_read_panics [] (by simp)

/-- Claim C5 counterexample: a transport whose write reports zero bytes
written with a success status for the two-byte command AB neither makes
the batch fail nor prevents the following command from being sent —
`Write` discards the reported byte count and checks only the status. -/
theorem sendCommands_ignores_byte_count :
    ((fun _ : String => ((0 : Nat), (0 : Int))) "AB").1 ≠ "AB".length ∧
    sendCommands (fun _ : String => ((0 : Nat), (0 : Int))) ["AB", "C"] =
      (["AB", "C"], none) := by
  exact ⟨by decide, by decide⟩

/-- Claim C5 amended: the controller writes each command in order and
fails immediately on the first command whose write reports a negative
VISA status (the reported byte count is ignored), without handing any
subsequent command to the transport. -/
theorem sendCommands_aborts_on_status_error (w : String → Nat × Int) :
    (∀ cs, (∀ c ∈ cs, 0 ≤ (w c).2) → sendCommands w cs = (cs, none)) ∧
    (∀ pre c post, (∀ b ∈ pre, 0 ≤ (w b).2) → (w c).2 < 0 →
      sendCommands w (pre ++ c :: post) = (pre ++ [c], some c)) := by
  constructor
  · intro cs h
    induction cs with
    | nil => rfl
    | cons a cs ih =>
      have ha : writeFails w a = false := by
        simp only [writeFails, decide_eq_false_iff_not, not_lt]
        exact h a (List.mem_cons_self a cs)
      have hcs := ih (fun c hc => h c (List.mem_cons_of_mem a hc))
      simp [sendCommands, ha, hcs]
  · intro pre c post hpre hc
    induction pre with
    | nil =>
      have hcf : writeFails w c = true := by
        simp only [writeFails, decide_eq_true_eq]
        exact hc
      simp [sendCommands, hcf]
    | cons a pre ih =>
      have ha : writeFails w a = false := by
        simp only [writeFails, decide_eq_false_iff_not, not_lt]
        exact hpre a (List.mem_cons_self a pre)
      have htail := ih (fun b hb => hpre b (List.mem_cons_of_mem a hb))
      simp [sendCommands, ha, htail]

/-- Witness for the amended C5: the second of three commands fails by
status, the first two reach the transport in order, the third is never
sent. -/
theorem sendCommands_aborts_on_status_error_witness :
    sendCommands (fun s => (s.length, if s = "B" then (-1 : Int) else 0)) ["A", "B", "C"] =
      (["A", "B"], some "B") :=
  (sendCommands_aborts_on_status_error _).2 ["A"] "B" ["C"] (by decide) (by decide)

/-- Claim C2 counterexample: on the input 1,2,1000 the parsing code
does not return an error: fields 0 to 2 parse successfully and the
unchecked access `parts[3]` then panics with an index-out-of-range
runtime error (`FetchPreamble` performs no field-count check and has
no MalformedPreamble error value). -/
theorem parsePreamble_short_input_panics :
    parsePreamble "1,2,1000" = .panicked 3 := by decide

/-- Claim C2 amended: for every input line with fewer than 10
comma-separated fields the parse never returns a preamble structure —
it returns the parse error of the first malformed field among those
present, or panics with an index out of range once all fields before
the first missing position parsed successfully (as on 1,2,1000). -/
theorem parsePreamble_short_input_never_ok (resp : String) (p : Preamble)
    (hlen : (preambleParts resp).length < 10) :
    parsePreamble resp ≠ .ok p := by
  intro h
  exact absurd (parsePreambleParts_ok (preambleParts resp) p h).1 (by omega)

/-- Witness for the amended C2 at the input 1,2,1000. -/
theorem parsePreamble_short_input_never_ok_witness :
    parsePreamble "1,2,1000" ≠
      PreambleResult.ok ⟨1, 2, 1000, 1, .finite 1 (-1), .finite 0 0, 0, .finite 1 0, 0, 0⟩ :=
  parsePreamble_short_input_never_ok "1,2,1000" _ (by decide)

/-- Claim C6 counterexample: an input with eleven comma-separated
fields is not rejected: the code parses the first ten fields and
silently ignores the extra one. -/
theorem parsePreamble_accepts_eleven_fields :
    (preambleParts "1,2,3,4,5,6,7,8,9,0,11").length = 11 ∧
    parsePreamble "1,2,3,4,5,6,7,8,9,0,11" =
      .ok ⟨1, 2, 3, 4, .finite 5 0, .finite 6 0, 7, .finite 8 0, 9, 0⟩ := by
  decide

/-- Claim C6 amended: parsing depends only on the first ten fields
(extra fields are ignored, so inputs with more than 10 fields are not
rejected; fewer than 10 fields never produce a preamble, by
`parsePreamble_short_input_never_ok`), and on success each field of
the returned structure is the parsed value of the token at its fixed
position with its declared numeric kind: format 0, type 1, points 2,
count 3, xIncrement 4, xOrigin 5, xReference 6, yIncrement 7,
yOrigin 8, yReference 9. -/
theorem parsePreamble_ok_positional :
    (∀ parts : List (List Char),
      parsePreambleParts parts = parsePreambleParts (parts.take 10)) ∧
    (∀ resp p, parsePreamble resp = .ok p →
      10 ≤ (preambleParts resp).length ∧
      goParseInt ((preambleParts resp).getD 0 []) = some p.Format ∧
      goParseInt ((preambleParts resp).getD 1 []) = some p.typ ∧
      goParseInt ((preambleParts resp).getD 2 []) = some p.Points ∧
      goParseInt ((preambleParts resp).getD 3 []) = some p.Count ∧
      goParseFloat ((preambleParts resp).getD 4 []) = some p.Xincrement ∧
      goParseFloat ((preambleParts resp).getD 5 []) = some p.Xorigin ∧
      goParseInt ((preambleParts resp).getD 6 []) = some p.Xref ∧
      goParseFloat ((preambleParts resp).getD 7 []) = some p.Yincrement ∧
      goParseInt ((preambleParts resp).getD 8 []) = some p.Yorigin ∧
      goParseInt ((preambleParts resp).getD 9 []) = some p.Yref) := by
  constructor
  · intro parts
    unfold parsePreambleParts
    rw [List.getElem?_take_of_lt (show 0 < 10 by omega),
      List.getElem?_take_of_lt (show 1 < 10 by omega),
      List.getElem?_take_of_lt (show 2 < 10 by omega),
      List.getElem?_take_of_lt (show 3 < 10 by omega),
      List.getElem?_take_of_lt (show 4 < 10 by omega),
      List.getElem?_take_of_lt (show 5 < 10 by omega),
      List.getElem?_take_of_lt (show 6 < 10 by omega),
      List.getElem?_take_of_lt (show 7 < 10 by omega),
      List.getElem?_take_of_lt (show 8 < 10 by omega),
      List.getElem?_take_of_lt (show 9 < 10 by omega)]
  · intro resp p h
    exact parsePreambleParts_ok _ p h

/-- Witness for the amended C6 on a well-formed response line. -/
theorem parsePreamble_ok_positional_witness :
    10 ≤ (preambleParts "0,2,1000,1,0.1,0,0,1,0,0").length ∧
    goParseInt ((preambleParts "0,2,1000,1,0.1,0,0,1,0,0").getD 0 []) = some 0 ∧
    goParseInt ((preambleParts "0,2,1000,1,0.1,0,0,1,0,0").getD 1 []) = some 2 ∧
    goParseInt ((preambleParts "0,2,1000,1,0.1,0,0,1,0,0").getD 2 []) = some 1000 ∧
    goParseInt ((preambleParts "0,2,1000,1,0.1,0,0,1,0,0").getD 3 []) = some 1 ∧
    goParseFloat ((preambleParts "0,2,1000,1,0.1,0,0,1,0,0").getD 4 []) =
      some (.finite 1 (-1)) ∧
    goParseFloat ((preambleParts "0,2,1000,1,0.1,0,0,1,0,0").getD 5 []) =
      some (.finite 0 0) ∧
    goParseInt ((preambleParts "0,2,1000,1,0.1,0,0,1,0,0").getD 6 []) = some 0 ∧
    goParseFloat ((preambleParts "0,2,1000,1,0.1,0,0,1,0,0").getD 7 []) =
      some (.finite 1 0) ∧
    goParseInt ((preambleParts "0,2,1000,1,0.1,0,0,1,0,0").getD 8 []) = some 0 ∧
    goParseInt ((preambleParts "0,2,1000,1,0.1,0,0,1,0,0").getD 9 []) = some 0 :=
  parsePreamble_ok_positional.2 "0,2,1000,1,0.1,0,0,1,0,0"
    ⟨0, 2, 1000, 1, .finite 1 (-1), .finite 0 0, 0, .finite 1 0, 0, 0⟩ (by decide)

/-- Claim C7: on an input with exactly 10 comma-separated fields whose
first malformed token sits at field `j`, the parse returns the error
for field `j` with that raw token, and no (partial) preamble structure
is produced. -/
theorem parsePreamble_first_bad_field (resp : String) (j : Nat)
    (hlen : (preambleParts resp).length = 10) (hj : j < 10)
    (hbad : tokenOK j ((preambleParts resp).getD j []) = false)
    (hgood : ∀ m, m < j → tokenOK m ((preambleParts resp).getD m []) = true) :
    parsePreamble resp = .err j ((preambleParts resp).getD j []) ∧
    ∀ p, parsePreamble resp ≠ .ok p := by
  have herr : parsePreamble resp = .err j ((preambleParts resp).getD j []) := by
    unfold parsePreamble
    set parts := preambleParts resp with hparts
    have hget : ∀ k, k < 10 → parts[k]? = some (parts.getD k []) := by
      intro k hk
      exact getElem?_of_length parts k (by omega)
    interval_cases j
    · have hbz : goParseInt (parts.getD 0 []) = none := by
        cases hx : goParseInt (parts.getD 0 []) with
        | none => rfl
        | some v =>
          rw [show tokenOK 0 (parts.getD 0 []) = (goParseInt (parts.getD 0 [])).isSome
            from rfl, hx] at hbad
          exact absurd hbad (by simp)
      unfold parsePreambleParts
      simp only [hget 0 (by omega), hbz]
    · have e0 := hgood 0 (by omega)
      rw [show tokenOK 0 (parts.getD 0 []) = (goParseInt (parts.getD 0 [])).isSome
        from rfl] at e0
      obtain ⟨v0, hv0⟩ := Option.isSome_iff_exists.mp e0
      have hbz : goParseInt (parts.getD 1 []) = none := by
        cases hx : goParseInt (parts.getD 1 []) with
        | none => rfl
        | some v =>
          rw [show tokenOK 1 (parts.getD 1 []) = (goParseInt (parts.getD 1 [])).isSome
            from rfl, hx] at hbad
          exact absurd hbad (by simp)
      unfold parsePreambleParts
      simp only [hget 0 (by omega), hv0, hget 1 (by omega), hbz]
    · have e0 := hgood 0 (by omega)
      rw [show tokenOK 0 (parts.getD 0 []) = (goParseInt (parts.getD 0 [])).isSome
        from rfl] at e0
      obtain ⟨v0, hv0⟩ := Option.isSome_iff_exists.mp e0
      have e1 := hgood 1 (by omega)
      rw [show tokenOK 1 (parts.getD 1 []) = (goParseInt (parts.getD 1 [])).isSome
        from rfl] at e1
      obtain ⟨v1, hv1⟩ := Option.isSome_iff_exists.mp e1
      have hbz : goParseInt (parts.getD 2 []) = none := by
        cases hx : goParseInt (parts.getD 2 []) with
        | none => rfl
        | some v =>
          rw [show tokenOK 2 (parts.getD 2 []) = (goParseInt (parts.getD 2 [])).isSome
            from rfl, hx] at hbad
          exact absurd hbad (by simp)
      unfold parsePreambleParts
      simp only [hget 0 (by omega), hv0, hget 1 (by omega), hv1, hget 2 (by omega), hbz]
    · have e0 := hgood 0 (by omega)
      rw [show tokenOK 0 (parts.getD 0 []) = (goParseInt (parts.getD 0 [])).isSome
        from rfl] at e0
      obtain ⟨v0, hv0⟩ := Option.isSome_iff_exists.mp e0
      have e1 := hgood 1 (by omega)
      rw [show tokenOK 1 (parts.getD 1 []) = (goParseInt (parts.getD 1 [])).isSome
        from rfl] at e1
      obtain ⟨v1, hv1⟩ := Option.isSome_iff_exists.mp e1
      have e2 := hgood 2 (by omega)
      rw [show tokenOK 2 (parts.getD 2 []) = (goParseInt (parts.getD 2 [])).isSome
        from rfl] at e2
      obtain ⟨v2, hv2⟩ := Option.isSome_iff_exists.mp e2
      have hbz : goParseInt (parts.getD 3 []) = none := by
        cases hx : goParseInt (parts.getD 3 []) with
        | none => rfl
        | some v =>
          rw [show tokenOK 3 (parts.getD 3 []) = (goParseInt (parts.getD 3 [])).isSome
            from rfl, hx] at hbad
          exact absurd hbad (by simp)
      unfold parsePreambleParts
      simp only [hget 0 (by omega), hv0, hget 1 (by omega), hv1, hget 2 (by omega), hv2,
        hget 3 (by omega), hbz]
    · have e0 := hgood 0 (by omega)
      rw [show tokenOK 0 (parts.getD 0 []) = (goParseInt (parts.getD 0 [])).isSome
        from rfl] at e0
      obtain ⟨v0, hv0⟩ := Option.isSome_iff_exists.mp e0
      have e1 := hgood 1 (by omega)
      rw [show tokenOK 1 (parts.getD 1 []) = (goParseInt (parts.getD 1 [])).isSome
        from rfl] at e1
      obtain ⟨v1, hv1⟩ := Option.isSome_iff_exists.mp e1
      have e2 := hgood 2 (by omega)
      rw [show tokenOK 2 (parts.getD 2 []) = (goParseInt (parts.getD 2 [])).isSome
        from rfl] at e2
      obtain ⟨v2, hv2⟩ := Option.isSome_iff_exists.mp e2
      have e3 := hgood 3 (by omega)
      rw [show tokenOK 3 (parts.getD 3 []) = (goParseInt (parts.getD 3 [])).isSome
        from rfl] at e3
      obtain ⟨v3, hv3⟩ := Option.isSome_iff_exists.mp e3
      have hbz : goParseFloat (parts.getD 4 []) = none := by
        cases hx : goParseFloat (parts.getD 4 []) with
        | none => rfl
        | some v =>
          rw [show tokenOK 4 (parts.getD 4 []) = (goParseFloat (parts.getD 4 [])).isSome
            from rfl, hx] at hbad
          exact absurd hbad (by simp)
      unfold parsePreambleParts
      simp only [hget 0 (by omega), hv0, hget 1 (by omega), hv1, hget 2 (by omega), hv2,
        hget 3 (by omega), hv3, hget 4 (by omega), hbz]
    · have e0 := hgood 0 (by omega)
      rw [show tokenOK 0 (parts.getD 0 []) = (goParseInt (parts.getD 0 [])).isSome
        from rfl] at e0
      obtain ⟨v0, hv0⟩ := Option.isSome_iff_exists.mp e0
      have e1 := hgood 1 (by omega)
      rw [show tokenOK 1 (parts.getD 1 []) = (goParseInt (parts.getD 1 [])).isSome
        from rfl] at e1
      obtain ⟨v1, hv1⟩ := Option.isSome_iff_exists.mp e1
      have e2 := hgood 2 (by omega)
      rw [show tokenOK 2 (parts.getD 2 []) = (goParseInt (parts.getD 2 [])).isSome
        from rfl] at e2
      obtain ⟨v2, hv2⟩ := Option.isSome_iff_exists.mp e2
      have e3 := hgood 3 (by omega)
      rw [show tokenOK 3 (parts.getD 3 []) = (goParseInt (parts.getD 3 [])).isSome
        from rfl] at e3
      obtain ⟨v3, hv3⟩ := Option.isSome_iff_exists.mp e3
      have e4 := hgood 4 (by omega)
      rw [show tokenOK 4 (parts.getD 4 []) = (goParseFloat (parts.getD 4 [])).isSome
        from rfl] at e4
      obtain ⟨v4, hv4⟩ := Option.isSome_iff_exists.mp e4
      have hbz : goParseFloat (parts.getD 5 []) = none := by
        cases hx : goParseFloat (parts.getD 5 []) with
        | none => rfl
        | some v =>
          rw [show tokenOK 5 (parts.getD 5 []) = (goParseFloat (parts.getD 5 [])).isSome
            from rfl, hx] at hbad
          exact absurd hbad (by simp)
      unfold parsePreambleParts
      simp only [hget 0 (by omega), hv0, hget 1 (by omega), hv1, hget 2 (by omega), hv2,
        hget 3 (by omega), hv3, hget 4 (by omega), hv4, hget 5 (by omega), hbz]
    · have e0 := hgood 0 (by omega)
      rw [show tokenOK 0 (parts.getD 0 []) = (goParseInt (parts.getD 0 [])).isSome
        from rfl] at e0
      obtain ⟨v0, hv0⟩ := Option.isSome_iff_exists.mp e0
      have e1 := hgood 1 (by omega)
      rw [show tokenOK 1 (parts.getD 1 []) = (goParseInt (parts.getD 1 [])).isSome
        from rfl] at e1
      obtain ⟨v1, hv1⟩ := Option.isSome_iff_exists.mp e1
      have e2 := hgood 2 (by omega)
      rw [show tokenOK 2 (parts.getD 2 []) = (goParseInt (parts.getD 2 [])).isSome
        from rfl] at e2
      obtain ⟨v2, hv2⟩ := Option.isSome_iff_exists.mp e2
      have e3 := hgood 3 (by omega)
      rw [show tokenOK 3 (parts.getD 3 []) = (goParseInt (parts.getD 3 [])).isSome
        from rfl] at e3
      obtain ⟨v3, hv3⟩ := Option.isSome_iff_exists.mp e3
      have e4 := hgood 4 (by omega)
      rw [show tokenOK 4 (parts.getD 4 []) = (goParseFloat (parts.getD 4 [])).isSome
        from rfl] at e4
      obtain ⟨v4, hv4⟩ := Option.isSome_iff_exists.mp e4
      have e5 := hgood 5 (by omega)
      rw [show tokenOK 5 (parts.getD 5 []) = (goParseFloat (parts.getD 5 [])).isSome
        from rfl] at e5
      obtain ⟨v5, hv5⟩ := Option.isSome_iff_exists.mp e5
      have hbz : goParseInt (parts.getD 6 []) = none := by
        cases hx : goParseInt (parts.getD 6 []) with
        | none => rfl
        | some v =>
          rw [show tokenOK 6 (parts.getD 6 []) = (goParseInt (parts.getD 6 [])).isSome
            from rfl, hx] at hbad
          exact absurd hbad (by simp)
      unfold parsePreambleParts
      simp only [hget 0 (by omega), hv0, hget 1 (by omega), hv1, hget 2 (by omega), hv2,
        hget 3 (by omega), hv3, hget 4 (by omega), hv4, hget 5 (by omega), hv5,
        hget 6 (by omega), hbz]
    · have e0 := hgood 0 (by omega)
      rw [show tokenOK 0 (parts.getD 0 []) = (goParseInt (parts.getD 0 [])).isSome
        from rfl] at e0
      obtain ⟨v0, hv0⟩ := Option.isSome_iff_exists.mp e0
      have e1 := hgood 1 (by omega)
      rw [show tokenOK 1 (parts.getD 1 []) = (goParseInt (parts.getD 1 [])).isSome
        from rfl] at e1
      obtain ⟨v1, hv1⟩ := Option.isSome_iff_exists.mp e1
      have e2 := hgood 2 (by omega)
      rw [show tokenOK 2 (parts.getD 2 []) = (goParseInt (parts.getD 2 [])).isSome
        from rfl] at e2
      obtain ⟨v2, hv2⟩ := Option.isSome_iff_exists.mp e2
      have e3 := hgood 3 (by omega)
      rw [show tokenOK 3 (parts.getD 3 []) = (goParseInt (parts.getD 3 [])).isSome
        from rfl] at e3
      obtain ⟨v3, hv3⟩ := Option.isSome_iff_exists.mp e3
      have e4 := hgood 4 (by omega)
      rw [show tokenOK 4 (parts.getD 4 []) = (goParseFloat (parts.getD 4 [])).isSome
        from rfl] at e4
      obtain ⟨v4, hv4⟩ := Option.isSome_iff_exists.mp e4
      have e5 := hgood 5 (by omega)
      rw [show tokenOK 5 (parts.getD 5 []) = (goParseFloat (parts.getD 5 [])).isSome
        from rfl] at e5
      obtain ⟨v5, hv5⟩ := Option.isSome_iff_exists.mp e5
      have e6 := hgood 6 (by omega)
      rw [show tokenOK 6 (parts.getD 6 []) = (goParseInt (parts.getD 6 [])).isSome
        from rfl] at e6
      obtain ⟨v6, hv6⟩ := Option.isSome_iff_exists.mp e6
      have hbz : goParseFloat (parts.getD 7 []) = none := by
        cases hx : goParseFloat (parts.getD 7 []) with
        | none => rfl
        | some v =>
          rw [show tokenOK 7 (parts.getD 7 []) = (goParseFloat (parts.getD 7 [])).isSome
            from rfl, hx] at hbad
          exact absurd hbad (by simp)
      unfold parsePreambleParts
      simp only [hget 0 (by omega), hv0, hget 1 (by omega), hv1, hget 2 (by omega), hv2,
        hget 3 (by omega), hv3, hget 4 (by omega), hv4, hget 5 (by omega), hv5,
        hget 6 (by omega), hv6, hget 7 (by omega), hbz]
    · have e0 := hgood 0 (by omega)
      rw [show tokenOK 0 (parts.getD 0 []) = (goParseInt (parts.getD 0 [])).isSome
        from rfl] at e0
      obtain ⟨v0, hv0⟩ := Option.isSome_iff_exists.mp e0
      have e1 := hgood 1 (by omega)
      rw [show tokenOK 1 (parts.getD 1 []) = (goParseInt (parts.getD 1 [])).isSome
        from rfl] at e1
      obtain ⟨v1, hv1⟩ := Option.isSome_iff_exists.mp e1
      have e2 := hgood 2 (by omega)
      rw [show tokenOK 2 (parts.getD 2 []) = (goParseInt (parts.getD 2 [])).isSome
        from rfl] at e2
      obtain ⟨v2, hv2⟩ := Option.isSome_iff_exists.mp e2
      have e3 := hgood 3 (by omega)
      rw [show tokenOK 3 (parts.getD 3 []) = (goParseInt (parts.getD 3 [])).isSome
        from rfl] at e3
      obtain ⟨v3, hv3⟩ := Option.isSome_iff_exists.mp e3
      have e4 := hgood 4 (by omega)
      rw [show tokenOK 4 (parts.getD 4 []) = (goParseFloat (parts.getD 4 [])).isSome
        from rfl] at e4
      obtain ⟨v4, hv4⟩ := Option.isSome_iff_exists.mp e4
      have e5 := hgood 5 (by omega)
      rw [show tokenOK 5 (parts.getD 5 []) = (goParseFloat (parts.getD 5 [])).isSome
        from rfl] at e5
      obtain ⟨v5, hv5⟩ := Option.isSome_iff_exists.mp e5
      have e6 := hgood 6 (by omega)
      rw [show tokenOK 6 (parts.getD 6 []) = (goParseInt (parts.getD 6 [])).isSome
        from rfl] at e6
      obtain ⟨v6, hv6⟩ := Option.isSome_iff_exists.mp e6
      have e7 := hgood 7 (by omega)
      rw [show tokenOK 7 (parts.getD 7 []) = (goParseFloat (parts.getD 7 [])).isSome
        from rfl] at e7
      obtain ⟨v7, hv7⟩ := Option.isSome_iff_exists.mp e7
      have hbz : goParseInt (parts.getD 8 []) = none := by
        cases hx : goParseInt (parts.getD 8 []) with
        | none => rfl
        | some v =>
          rw [show tokenOK 8 (parts.getD 8 []) = (goParseInt (parts.getD 8 [])).isSome
            from rfl, hx] at hbad
          exact absurd hbad (by simp)
      unfold parsePreambleParts
      simp only [hget 0 (by omega), hv0, hget 1 (by omega), hv1, hget 2 (by omega), hv2,
        hget 3 (by omega), hv3, hget 4 (by omega), hv4, hget 5 (by omega), hv5,
        hget 6 (by omega), hv6, hget 7 (by omega), hv7, hget 8 (by omega), hbz]
    · have e0 := hgood 0 (by omega)
      rw [show tokenOK 0 (parts.getD 0 []) = (goParseInt (parts.getD 0 [])).isSome
        from rfl] at e0
      obtain ⟨v0, hv0⟩ := Option.isSome_iff_exists.mp e0
      have e1 := hgood 1 (by omega)
      rw [show tokenOK 1 (parts.getD 1 []) = (goParseInt (parts.getD 1 [])).isSome
        from rfl] at e1
      obtain ⟨v1, hv1⟩ := Option.isSome_iff_exists.mp e1
      have e2 := hgood 2 (by omega)
      rw [show tokenOK 2 (parts.getD 2 []) = (goParseInt (parts.getD 2 [])).isSome
        from rfl] at e2
      obtain ⟨v2, hv2⟩ := Option.isSome_iff_exists.mp e2
      have e3 := hgood 3 (by omega)
      rw [show tokenOK 3 (parts.getD 3 []) = (goParseInt (parts.getD 3 [])).isSome
        from rfl] at e3
      obtain ⟨v3, hv3⟩ := Option.isSome_iff_exists.mp e3
      have e4 := hgood 4 (by omega)
      rw [show tokenOK 4 (parts.getD 4 []) = (goParseFloat (parts.getD 4 [])).isSome
        from rfl] at e4
      obtain ⟨v4, hv4⟩ := Option.isSome_iff_exists.mp e4
      have e5 := hgood 5 (by omega)
      rw [show tokenOK 5 (parts.getD 5 []) = (goParseFloat (parts.getD 5 [])).isSome
        from rfl] at e5
      obtain ⟨v5, hv5⟩ := Option.isSome_iff_exists.mp e5
      have e6 := hgood 6 (by omega)
      rw [show tokenOK 6 (parts.getD 6 []) = (goParseInt (parts.getD 6 [])).isSome
        from rfl] at e6
      obtain ⟨v6, hv6⟩ := Option.isSome_iff_exists.mp e6
      have e7 := hgood 7 (by omega)
      rw [show tokenOK 7 (parts.getD 7 []) = (goParseFloat (parts.getD 7 [])).isSome
        from rfl] at e7
      obtain ⟨v7, hv7⟩ := Option.isSome_iff_exists.mp e7
      have e8 := hgood 8 (by omega)
      rw [show tokenOK 8 (parts.getD 8 []) = (goParseInt (parts.getD 8 [])).isSome
        from rfl] at e8
      obtain ⟨v8, hv8⟩ := Option.isSome_iff_exists.mp e8
      have hbz : goParseInt (parts.getD 9 []) = none := by
        cases hx : goParseInt (parts.getD 9 []) with
        | none => rfl
        | some v =>
          rw [show tokenOK 9 (parts.getD 9 []) = (goParseInt (parts.getD 9 [])).isSome
            from rfl, hx] at hbad
          exact absurd hbad (by simp)
      unfold parsePreambleParts
      simp only [hget 0 (by omega), hv0, hget 1 (by omega), hv1, hget 2 (by omega), hv2,
        hget 3 (by omega), hv3, hget 4 (by omega), hv4, hget 5 (by omega), hv5,
        hget 6 (by omega), hv6, hget 7 (by omega), hv7, hget 8 (by omega), hv8,
        hget 9 (by omega), hbz]
  refine ⟨herr, ?_⟩
  intro p hok
  rw [herr] at hok
  exact PreambleResult.noConfusion hok

/-- Witness for C7: the 10-field input whose first token is not
numeric fails at field index 0 with raw token x. -/
theorem parsePreamble_first_bad_field_witness :
    parsePreamble "x,2,1000,1,0.1,0,0,1,0,0" =
      .err 0 ((preambleParts "x,2,1000,1,0.1,0,0,1,0,0").getD 0 []) ∧
    ∀ p, parsePreamble "x,2,1000,1,0.1,0,0,1,0,0" ≠ .ok p :=
  parsePreamble_first_bad_field "x,2,1000,1,0.1,0,0,1,0,0" 0 (by decide) (by omega)
    (by decide) (fun m hm => absurd hm (Nat.not_lt_zero m))

/-- Claim C1 (code defect): on payload 00 00 01 01 03 with two
configured signals on bit positions 0 and 1, the transition log gets
entries exactly at timestamps 0, 2 and 4 as claimed, but the
latest-change index of the bit-1 signal is 2, not the claimed 4.  In
Go, `b&1<<i` parses as `(b&1)<<i` because `&` and `<<` share
precedence and associate to the left, so the loop marks every
configured pin as changed exactly when bit 0 changes — contradicting
the inline comment (store whether a specific pin changed at this time)
and the spec, which describe a per-bit comparison. -/
theorem extractEdges_example_eval :
    extractEdges 2 [0, 0, 1, 1, 3] =
      { transitions := [(4, 3), (2, 1), (0, 0)]
        signalChanges := [(1, 2), (0, 2)]
        last := 3
        timestamp := 5 } ∧
    (extractEdges 2 [0, 0, 1, 1, 3]).signalChanges.lookup 0 = some 2 ∧
    (extractEdges 2 [0, 0, 1, 1, 3]).signalChanges.lookup 1 = some 2 ∧
    ¬ (extractEdges 2 [0, 0, 1, 1, 3]).signalChanges.lookup 1 = some 4 := by
  decide

/-- Claim C9 counterexample: for the payload whose first byte is 0x01
the final transition log does not contain the entry (0, 0x00): the
loop body runs at timestamp 0 with a nonzero byte and overwrites the
pre-recorded initial entry with (0, 0x01). -/
theorem extractEdges_initial_entry_overwritten :
    (extractEdges 2 [1]).transitions.lookup 0 = some 1 ∧
    ¬ (extractEdges 2 [1]).transitions.lookup 0 = some 0 ∧
    ¬ ((0, 0) ∈ (extractEdges 2 [1]).transitions) := by
  decide

/-- Claim C9 amended: the entry (0, 0x00) is recorded before the pass,
so the final transition log always has a binding at timestamp 0; it is
still 0x00 whenever the payload is empty or starts with a zero byte,
and it is the first payload byte otherwise (the initial entry is
overwritten at timestamp 0 when the first byte is nonzero). -/
theorem extractEdges_lookup_zero (numPins : Nat) (data : List Nat) :
    (extractEdges numPins data).transitions.lookup 0 = some (data.headD 0) := by
  cases data with
  | nil => rfl
  | cons b rest =>
    show ((b :: rest).foldl (extractStep numPins) extractInit).transitions.lookup 0 =
      some b
    rw [List.foldl_cons]
    have hts : 1 ≤ (extractStep numPins extractInit b).timestamp := by
      rw [extractStep_timestamp]
      omega
    rw [foldl_extractStep_lookup_zero numPins rest _ hts]
    by_cases hb : b ≠ extractInit.last
    · rw [extractStep_eq_pos numPins extractInit b hb]
      exact lookup_goMapInsert_self extractInit.transitions extractInit.timestamp b
    · rw [extractStep_eq_neg numPins extractInit b hb]
      have hb0 : b = 0 := by simpa [extractInit] using hb
      subst hb0
      rfl

/-- Claim C10: every timestamp recorded in the per-signal latest-change
map is a key of the transition log, bound to the raw byte observed at
that sample index. -/
theorem extractEdges_signalChanges_in_transitions (numPins : Nat) (data : List Nat)
    (i t : Nat) (h : (extractEdges numPins data).signalChanges.lookup i = some t) :
    ∃ v, data[t]? = some v ∧
      (extractEdges numPins data).transitions.lookup t = some v := by
  have h0 : SigInv [] extractInit := by
    refine ⟨rfl, ?_⟩
    intro i t hl
    simp [extractInit] at hl
  have hinv := sigInv_foldl numPins data [] extractInit h0
  rw [List.nil_append] at hinv
  exact hinv.2 i t h

/-- Witness for C10 on the example payload: the bit-0 signal changed
last at timestamp 2, and the transition log binds 2 to the payload
byte at index 2. -/
theorem extractEdges_signalChanges_in_transitions_witness :
    ∃ v, ([0, 0, 1, 1, 3] : List Nat)[2]? = some v ∧
      (extractEdges 2 [0, 0, 1, 1, 3]).transitions.lookup 2 = some v :=
  extractEdges_signalChanges_in_transitions 2 [0, 0, 1, 1, 3] 0 2 (by decide)
